import Mathlib

/-!
Verification of the member-directory core (validation + CRUD business logic).

The definitions below are a shallow embedding of `app/validation.py`,
`app/exceptions.py`, `app/models.py` and `app/crud.py`:

* Python strings become `String`; `None` becomes `none`.
* CPython's `str.strip()` / `str.lower()` are modelled on the ASCII range
  (`pyStrip`, `pyLower`); the regex character classes used by the validators
  are modelled by decidable character predicates over code points.
* The SQL store is a list of rows plus an id counter (`Store`).  A session's
  `commit` is modelled by `insertCommit` / `updateCommit`, which enforce the
  schema's unique indexes on `email` and `phone` and report which index was
  violated, mirroring the `IntegrityError` message inspection in `crud.py`
  (`"email" in str(e).lower()` / `"phone" in str(e).lower()`); the
  `ConstraintViolation.other` case stands for an integrity error naming
  neither column.  `rollback` is modelled by returning the committed store
  unchanged.
* `create_member_racy` runs the read phase (pre-checks) against one store
  snapshot and the commit against another, modelling a concurrent writer
  committing between the pre-check and the commit; the sequential
  `create_member` is the special case where both snapshots coincide.
-/

/-- Code points Python's `\s` (and `str.strip()`) treats as whitespace in the
ASCII range: TAB(9), LF(10), VT(11), FF(12), CR(13) and space(32). -/
def isPySpace (c : Char) : Bool :=
  c.toNat = 32 ∨ (9 ≤ c.toNat ∧ c.toNat ≤ 13)

/-- The regex class `[a-zA-Z]`. -/
def isAsciiAlpha (c : Char) : Bool :=
  (65 ≤ c.toNat ∧ c.toNat ≤ 90) ∨ (97 ≤ c.toNat ∧ c.toNat ≤ 122)

/-- The regex class `[0-9]`; also `str.isdigit` on the ASCII range. -/
def isAsciiDigit (c : Char) : Bool :=
  48 ≤ c.toNat ∧ c.toNat ≤ 57

/-- The name regex class `[a-zA-Z0-9\s\-'\.]` (45 `-`, 39 apostrophe, 46 `.`). -/
def isNameChar (c : Char) : Bool :=
  isAsciiAlpha c || isAsciiDigit c || isPySpace c ||
    c.toNat = 45 || c.toNat = 39 || c.toNat = 46

/-- The email local-part class `[a-zA-Z0-9._%+-]` (46 `.`, 95 `_`, 37 `%`, 43 `+`, 45 `-`). -/
def isLocalChar (c : Char) : Bool :=
  isAsciiAlpha c || isAsciiDigit c ||
    c.toNat = 46 || c.toNat = 95 || c.toNat = 37 || c.toNat = 43 || c.toNat = 45

/-- The email domain class `[a-zA-Z0-9.-]`. -/
def isDomainChar (c : Char) : Bool :=
  isAsciiAlpha c || isAsciiDigit c || c.toNat = 46 || c.toNat = 45

/-- The phone formatting class `[\s\-\(\)\+\.]` (45 `-`, 40 `(`, 41 `)`, 43 `+`, 46 `.`). -/
def isFmtChar (c : Char) : Bool :=
  isPySpace c || c.toNat = 45 || c.toNat = 40 || c.toNat = 41 || c.toNat = 43 || c.toNat = 46

/-- Drop leading and trailing Python whitespace from a character list. -/
def pyStripList (cs : List Char) : List Char :=
  ((cs.dropWhile isPySpace).reverse.dropWhile isPySpace).reverse

/-- CPython's `str.strip()` (ASCII whitespace). -/
def pyStrip (s : String) : String :=
  String.mk (pyStripList s.toList)

/-- CPython's `str.lower()` on the ASCII range (`Char.toLower` maps `A`-`Z`
to `a`-`z` and fixes everything else). -/
def pyLower (s : String) : String :=
  String.mk (s.toList.map Char.toLower)

/-- The error taxonomy of `app/exceptions.py`: `InvalidMemberDataError`,
`MemberAlreadyExistsError`, `MemberNotFoundError`, `DatabaseOperationError`. -/
inductive MemberError where
  | invalidField (field value reason : String)
  | alreadyExists (field value : String)
  | notFound (identifier value : String)
  | storeError (operation detail : String)
deriving DecidableEq

/-- `validation.validate_name`. -/
def validate_name (name : String) : Except MemberError String :=
  if name = "" then .error (.invalidField "name" name "Name is required")
  else
    let normalized := pyStrip name
    if normalized = "" then
      .error (.invalidField "name" name "Name cannot be empty or only whitespace")
    else if normalized.length < 2 then
      .error (.invalidField "name" name "Name must be at least 2 characters long")
    else if 100 < normalized.length then
      .error (.invalidField "name" name "Name cannot exceed 100 characters")
    else if ¬ normalized.toList.all isNameChar then
      .error (.invalidField "name" name "Name contains invalid characters")
    else .ok normalized

/-- Split a list at the first occurrence of `sep`, if any. -/
def splitOnce (sep : Char) : List Char → Option (List Char × List Char)
  | [] => none
  | c :: cs =>
    if c = sep then some ([], cs)
    else (splitOnce sep cs).map (fun p => (c :: p.1, p.2))

/-- Split a list at the last occurrence of `.` (code point 46), if any. -/
def splitLastDot : List Char → Option (List Char × List Char)
  | [] => none
  | c :: cs =>
    match splitLastDot cs with
    | some p => some (c :: p.1, p.2)
    | none => if c.toNat = 46 then some ([], cs) else none

/-- The email regex `^[a-zA-Z0-9._%+-]+@[a-zA-Z0-9.-]+\.[a-zA-Z]{2,}$` of
`validation.validate_email`.  With backtracking the pattern matches exactly
when the string splits as `local@domain.tld` where `local` is a nonempty run
of local-part characters, every character after the `@` is a domain
character, and the part after the last dot is two or more letters with a
nonempty prefix before that dot. -/
def emailPatternMatch (cs : List Char) : Bool :=
  match splitOnce '@' cs with
  | some (l, d) =>
    !l.isEmpty && l.all isLocalChar && d.all isDomainChar &&
      (match splitLastDot d with
       | some p => !p.1.isEmpty && 2 ≤ p.2.length && p.2.all isAsciiAlpha
       | none => false)
  | none => false

/-- Does the list contain two consecutive dots (Python `".." in s`)? -/
def hasDoubleDot : List Char → Bool
  | [] => false
  | [_] => false
  | a :: b :: cs => (a.toNat = 46 && b.toNat = 46) || hasDoubleDot (b :: cs)

/-- Is the first character a dot (Python `s.startswith('.')`)? -/
def headIsDot : List Char → Bool
  | [] => false
  | c :: _ => c.toNat = 46

/-- `validation.validate_email`. -/
def validate_email (email : String) : Except MemberError String :=
  if email = "" then .error (.invalidField "email" email "Email is required")
  else
    let normalized := pyLower (pyStrip email)
    if normalized = "" then
      .error (.invalidField "email" email "Email cannot be empty")
    else if 254 < normalized.length then
      .error (.invalidField "email" email "Email address is too long")
    else if ¬ emailPatternMatch normalized.toList then
      .error (.invalidField "email" email "Invalid email format")
    else if hasDoubleDot normalized.toList then
      .error (.invalidField "email" email "Email cannot contain consecutive dots")
    else if headIsDot normalized.toList || headIsDot normalized.toList.reverse then
      .error (.invalidField "email" email "Email cannot start or end with a dot")
    else .ok normalized

/-- `re.sub(r'[\s\-\(\)\+\.]', '', ·)`: drop the formatting characters. -/
def phoneClean (cs : List Char) : List Char :=
  cs.filter (fun c => !isFmtChar c)

/-- Python `str.isdigit` (ASCII): nonempty and all digits. -/
def pyIsdigit (cs : List Char) : Bool :=
  !cs.isEmpty && cs.all isAsciiDigit

/-- `validation.validate_phone`. -/
def validate_phone : Option String → Except MemberError (Option String)
  | none => .ok none
  | some phone =>
    let normalized := pyStrip phone
    if normalized = "" then .ok none
    else if 20 < normalized.length then
      .error (.invalidField "phone" phone "Phone number is too long")
    else
      let clean := phoneClean normalized.toList
      if ¬ pyIsdigit clean then
        .error (.invalidField "phone" phone "Phone number contains invalid characters")
      else if clean.length < 8 then
        .error (.invalidField "phone" phone "Phone number is too short")
      else if 15 < clean.length then
        .error (.invalidField "phone" phone "Phone number is too long")
      else .ok (some normalized)

/-- `validation.validate_member_data`: name, then email, then phone; the
first failure short-circuits. -/
def validate_member_data (name email : String) (phone : Option String) :
    Except MemberError (String × String × Option String) :=
  match validate_name name with
  | .error e => .error e
  | .ok vn =>
    match validate_email email with
    | .error e => .error e
    | .ok ve =>
      match validate_phone phone with
      | .error e => .error e
      | .ok vp => .ok (vn, ve, vp)

/-- A persisted `models.Member` row. -/
structure Member where
  id : Nat
  name : String
  email : String
  phone : Option String
deriving DecidableEq

/-- `models.MemberCreate`. -/
structure MemberCreate where
  name : String
  email : String
  phone : Option String
deriving DecidableEq

/-- `models.MemberUpdate`: `none` means the field was not supplied. -/
structure MemberUpdate where
  name : Option String
  email : Option String
  phone : Option String
deriving DecidableEq

/-- The relational store: committed rows plus the id auto-increment counter. -/
structure Store where
  members : List Member
  nextId : Nat
deriving DecidableEq

/-- `crud.get_member_by_email`: first row whose email equals the
lower-cased query (`Member.email == email.lower()`, `.first()`). -/
def get_member_by_email (s : Store) (email : String) : Option Member :=
  s.members.find? (fun m => m.email == pyLower email)

/-- `crud.get_member_by_phone`: first row whose phone equals the query;
rows with `NULL` phone never match. -/
def get_member_by_phone (s : Store) (phone : String) : Option Member :=
  s.members.find? (fun m => m.phone == some phone)

/-- `crud.get_member_by_id` (primary-key lookup). -/
def get_member_by_id (s : Store) (mid : Nat) : Option Member :=
  s.members.find? (fun m => m.id == mid)

/-- `crud.get_all_members` with pagination. -/
def get_all_members (s : Store) (skip limit : Nat) : List Member :=
  (s.members.drop skip).take limit

/-- Which unique index a commit-time `IntegrityError` names: the `email`
index, the `phone` index, or (`other`) a constraint naming neither column,
which `crud.py` maps to `DatabaseOperationError`. -/
inductive ConstraintViolation where
  | email
  | phone
  | other
deriving DecidableEq

/-- Committing an `INSERT`: the store's unique indexes reject a duplicate
email, then a duplicate non-null phone; otherwise the row is appended and
the id counter advances. -/
def insertCommit (s : Store) (m : Member) : Except ConstraintViolation Store :=
  if s.members.any (fun x => x.email == m.email) then .error .email
  else if (match m.phone with
           | some p => s.members.any (fun x => x.phone == some p)
           | none => false) then .error .phone
  else .ok { members := s.members ++ [m], nextId := s.nextId + 1 }

/-- The `except IntegrityError` handler of `crud.create_member`: attribute
the violation to a field, else fall back to `DatabaseOperationError`
(`"Constraint violation"`); the phone value is `validated_phone or ""`. -/
def integrityErrorCreate (v : ConstraintViolation) (ve : String) (vp : Option String) :
    MemberError :=
  match v with
  | .email => .alreadyExists "email" ve
  | .phone => .alreadyExists "phone" (vp.getD "")
  | .other => .storeError "create_member" "Constraint violation"

/-- Steps 4-5 of `crud.create_member`: build the row from the validated
data, commit, and on a constraint violation roll back and translate it. -/
def create_insert (scommit : Store) (vn ve : String) (vp : Option String) :
    Except MemberError Member × Store :=
  let m : Member := { id := scommit.nextId, name := vn, email := ve, phone := vp }
  match insertCommit scommit m with
  | .ok s2 => (.ok m, s2)
  | .error v => (.error (integrityErrorCreate v ve vp), scommit)

/-- `crud.create_member` with the read phase (pre-checks) evaluated against
`spre` and the commit against `scommit`, modelling a concurrent writer
committing in between; every error path rolls back, leaving the committed
store `scommit` unchanged. -/
def create_member_racy (spre scommit : Store) (d : MemberCreate) :
    Except MemberError Member × Store :=
  match validate_member_data d.name d.email d.phone with
  | .error e => (.error e, scommit)
  | .ok (vn, ve, vp) =>
    match get_member_by_email spre ve with
    | some _ => (.error (.alreadyExists "email" ve), scommit)
    | none =>
      match vp with
      | some p =>
        match get_member_by_phone spre p with
        | some _ => (.error (.alreadyExists "phone" p), scommit)
        | none => create_insert scommit vn ve (some p)
      | none => create_insert scommit vn ve none

/-- `crud.create_member`, sequential (no interleaved writer). -/
def create_member (s : Store) (d : MemberCreate) : Except MemberError Member × Store :=
  create_member_racy s s d

/-- The name branch of `crud.update_member`:
`validate_member_data(member_data.name, "dummy@example.com")[0]`. -/
def updName (d : MemberUpdate) : Except MemberError (Option String) :=
  match d.name with
  | none => .ok none
  | some n =>
    match validate_member_data n "dummy@example.com" none with
    | .error e => .error e
    | .ok r => .ok (some r.1)

/-- The email branch of `crud.update_member`: validate via
`validate_member_data("Dummy", member_data.email)[1]`, then the uniqueness
pre-check excluding the row being updated. -/
def updEmail (s : Store) (mid : Nat) (d : MemberUpdate) : Except MemberError (Option String) :=
  match d.email with
  | none => .ok none
  | some e =>
    match validate_member_data "Dummy" e none with
    | .error err => .error err
    | .ok r =>
      match get_member_by_email s r.2.1 with
      | some ex =>
        if ex.id ≠ mid then .error (.alreadyExists "email" r.2.1)
        else .ok (some r.2.1)
      | none => .ok (some r.2.1)

/-- The phone branch of `crud.update_member`: validate via
`validate_member_data("Dummy", "dummy@example.com", member_data.phone)[2]`;
only a truthy validated phone is pre-checked for uniqueness (excluding the
row being updated), and the validated value — possibly `None` — is staged. -/
def updPhone (s : Store) (mid : Nat) (d : MemberUpdate) :
    Except MemberError (Option (Option String)) :=
  match d.phone with
  | none => .ok none
  | some p =>
    match validate_member_data "Dummy" "dummy@example.com" (some p) with
    | .error err => .error err
    | .ok r =>
      match r.2.2 with
      | some q =>
        match get_member_by_phone s q with
        | some ex =>
          if ex.id ≠ mid then .error (.alreadyExists "phone" q)
          else .ok (some (some q))
        | none => .ok (some (some q))
      | none => .ok (some none)

/-- `setattr` loop of `crud.update_member`: staged fields overwrite, the
rest keep their prior values; `id` is never touched. -/
def applyUpdate (existing : Member) (uN uE : Option String) (uP : Option (Option String)) :
    Member :=
  { id := existing.id
    name := uN.getD existing.name
    email := uE.getD existing.email
    phone := match uP with
             | some v => v
             | none => existing.phone }

/-- Committing an `UPDATE`: the unique indexes re-check the columns the
statement touches against every other row; on success the row is replaced
in place. -/
def updateCommit (s : Store) (mid : Nat) (uE : Option String) (uP : Option (Option String))
    (newm : Member) : Except ConstraintViolation Store :=
  if (match uE with
      | some e => s.members.any (fun x => x.id != mid && x.email == e)
      | none => false) then .error .email
  else if (match uP with
           | some (some p) => s.members.any (fun x => x.id != mid && x.phone == some p)
           | some none => false
           | none => false) then .error .phone
  else .ok { s with members := s.members.map (fun x => if x.id = mid then newm else x) }

/-- The `except IntegrityError` handler of `crud.update_member`:
`update_data.get(field, "")` supplies the conflicting value. -/
def integrityErrorUpdate (v : ConstraintViolation) (uE : Option String)
    (uP : Option (Option String)) : MemberError :=
  match v with
  | .email => .alreadyExists "email" (uE.getD "")
  | .phone => .alreadyExists "phone" ((uP.getD none).getD "")
  | .other => .storeError "update_member" "Constraint violation"

/-- `crud.update_member`: lookup, per-field validation and pre-checks,
apply, commit; every error path rolls back. -/
def update_member (s : Store) (mid : Nat) (d : MemberUpdate) :
    Except MemberError Member × Store :=
  match get_member_by_id s mid with
  | none => (.error (.notFound "id" (toString mid)), s)
  | some existing =>
    match updName d with
    | .error e => (.error e, s)
    | .ok uN =>
      match updEmail s mid d with
      | .error e => (.error e, s)
      | .ok uE =>
        match updPhone s mid d with
        | .error e => (.error e, s)
        | .ok uP =>
          let newm := applyUpdate existing uN uE uP
          match updateCommit s mid uE uP newm with
          | .ok s2 => (.ok newm, s2)
          | .error v => (.error (integrityErrorUpdate v uE uP), s)

/-- `crud.delete_member`: lookup then hard delete and commit. -/
def delete_member (s : Store) (mid : Nat) : Except MemberError Bool × Store :=
  match get_member_by_id s mid with
  | none => (.error (.notFound "id" (toString mid)), s)
  | some _ => (.ok true, { s with members := s.members.filter (fun x => x.id != mid) })

/-- The raised-exception level of the Python code: the four domain
exception classes of `app/exceptions.py`, SQLAlchemy's `IntegrityError`
(carrying which unique index its message names), and any other raw
exception escaping the store/session layer. -/
inductive PyException where
  | domain (e : MemberError)
  | integrityError (v : ConstraintViolation)
  | raw (msg : String)
deriving DecidableEq

/-- The `message` attribute each exception class of `app/exceptions.py`
builds in its constructor (this is also its `str(e)`). -/
def errMessage : MemberError → String
  | .invalidField f _ r => "Invalid " ++ f ++ ": " ++ r
  | .alreadyExists f v => "Member with " ++ f ++ " \x27" ++ v ++ "\x27 already exists"
  | .notFound i v => "Member with " ++ i ++ " \x27" ++ v ++ "\x27 not found"
  | .storeError op _ => "Database operation failed: " ++ op

/-- Python `str(e)` for a raised exception: the domain classes render their
message, an `IntegrityError` carries the store's constraint message (SQLite
names the violated unique index), and a raw exception is its own text. -/
def pyStrOf : PyException → String
  | .domain e => errMessage e
  | .integrityError .email => "UNIQUE constraint failed: members.email"
  | .integrityError .phone => "UNIQUE constraint failed: members.phone"
  | .integrityError .other => "constraint failed"
  | .raw msg => msg

/-- Fault injection for the session layer: `execFault` makes every
`session.exec`/`session.get` raise that raw exception, `commitFault` makes
`session.commit` raise it (a non-`IntegrityError` failure such as lost
connectivity). -/
structure SessionFaults where
  execFault : Option String
  commitFault : Option String
deriving DecidableEq

/-- A `session.exec`/`session.get` call: returns the store's answer unless
the session raises a raw exception. -/
def session_exec {α : Type} (f : SessionFaults) (value : α) : Except PyException α :=
  match f.execFault with
  | some msg => .error (.raw msg)
  | none => .ok value

/-- `crud.get_member_by_email` at the exception level: the `try/except`
wraps any session exception into
`DatabaseOperationError("get_member_by_email", str(e))`. -/
def get_member_by_email_py (f : SessionFaults) (s : Store) (email : String) :
    Except PyException (Option Member) :=
  match session_exec f (get_member_by_email s email) with
  | .ok r => .ok r
  | .error ex => .error (.domain (.storeError "get_member_by_email" (pyStrOf ex)))

/-- `crud.get_member_by_phone` at the exception level. -/
def get_member_by_phone_py (f : SessionFaults) (s : Store) (phone : String) :
    Except PyException (Option Member) :=
  match session_exec f (get_member_by_phone s phone) with
  | .ok r => .ok r
  | .error ex => .error (.domain (.storeError "get_member_by_phone" (pyStrOf ex)))

/-- A `session.commit` call: raises the injected raw fault if any, else
surfaces the store's constraint verdict as an `IntegrityError`. -/
def commit_py (f : SessionFaults) (r : Except ConstraintViolation Store) :
    Except PyException Store :=
  match f.commitFault with
  | some msg => .error (.raw msg)
  | none =>
    match r with
    | .ok s2 => .ok s2
    | .error v => .error (.integrityError v)

/-- The insert-and-commit tail of `crud.create_member`'s `try` block. -/
def insert_and_commit_py (f : SessionFaults) (scommit : Store) (vn ve : String)
    (vp : Option String) : Except PyException (Member × Store) :=
  let m : Member := { id := scommit.nextId, name := vn, email := ve, phone := vp }
  match commit_py f (insertCommit scommit m) with
  | .ok s2 => .ok (m, s2)
  | .error ex => .error ex

/-- The `try` block of `crud.create_member` at the exception level: any
step may raise (validation a domain error, the wrapped reads a
`DatabaseOperationError`, the commit an `IntegrityError` or a raw fault). -/
def create_member_try (f : SessionFaults) (spre scommit : Store) (d : MemberCreate) :
    Except PyException (Member × Store) :=
  match validate_member_data d.name d.email d.phone with
  | .error e => .error (.domain e)
  | .ok (vn, ve, vp) =>
    match get_member_by_email_py f spre ve with
    | .error ex => .error ex
    | .ok (some _) => .error (.domain (.alreadyExists "email" ve))
    | .ok none =>
      match vp with
      | some p =>
        match get_member_by_phone_py f spre p with
        | .error ex => .error ex
        | .ok (some _) => .error (.domain (.alreadyExists "phone" p))
        | .ok none => insert_and_commit_py f scommit vn ve (some p)
      | none => insert_and_commit_py f scommit vn ve none

/-- The `except` chain of `crud.create_member`:
`InvalidMemberDataError`/`MemberAlreadyExistsError` re-raised as-is, an
`IntegrityError` translated by field, and every other exception wrapped by
the catch-all into `DatabaseOperationError("create_member", str(e))`. -/
def create_handle (ex : PyException) (ve : String) (vp : Option String) : MemberError :=
  match ex with
  | .domain (.invalidField a b c) => .invalidField a b c
  | .domain (.alreadyExists a b) => .alreadyExists a b
  | .integrityError v => integrityErrorCreate v ve vp
  | ex2 => .storeError "create_member" (pyStrOf ex2)

/-- `crud.create_member` at the exception level: run the `try` block, and
on any exception roll back and dispatch the `except` chain.  The handlers
close over `validated_email`/`validated_phone`; validation is pure, so the
model recomputes them (they are only consulted by the `IntegrityError`
clause, which can fire only after validation succeeded). -/
def create_member_py (f : SessionFaults) (spre scommit : Store) (d : MemberCreate) :
    Except PyException Member × Store :=
  match create_member_try f spre scommit d with
  | .ok ms => (.ok ms.1, ms.2)
  | .error ex =>
    match validate_member_data d.name d.email d.phone with
    | .ok r => (.error (.domain (create_handle ex r.2.1 r.2.2)), scommit)
    | .error _ => (.error (.domain (create_handle ex "" none)), scommit)

/-- Modelled from the spec claim C8's words: the allowed name characters
"letters, digits, space, hyphen, apostrophe, and dot" (space only, not the
other whitespace characters the code's `\s` accepts). -/
def claimNameChar (c : Char) : Bool :=
  isAsciiAlpha c || isAsciiDigit c ||
    c.toNat = 32 || c.toNat = 45 || c.toNat = 39 || c.toNat = 46

/-- Modelled from the spec claim C7's words: the formatting characters
"space, hyphen, parentheses, plus, and dot" (space only, not the other
whitespace characters the code's `\s` strips). -/
def claimFmtChar (c : Char) : Bool :=
  c.toNat = 32 || c.toNat = 45 || c.toNat = 40 || c.toNat = 41 || c.toNat = 43 || c.toNat = 46

/-- Modelled from the amended claim C8: letters, digits, whitespace
characters (space, tab, line feed, vertical tab, form feed, carriage
return), hyphen, apostrophe, and dot. -/
def amendedNameChar (c : Char) : Bool :=
  isAsciiAlpha c || isAsciiDigit c ||
    c.toNat = 32 || c.toNat = 9 || c.toNat = 10 || c.toNat = 11 || c.toNat = 12 ||
    c.toNat = 13 || c.toNat = 45 || c.toNat = 39 || c.toNat = 46

/-- Modelled from the amended claim C7: the formatting characters are the
whitespace characters (space, tab, line feed, vertical tab, form feed,
carriage return), hyphen, parentheses, plus, and dot. -/
def amendedFmtChar (c : Char) : Bool :=
  c.toNat = 32 || c.toNat = 9 || c.toNat = 10 || c.toNat = 11 || c.toNat = 12 ||
    c.toNat = 13 || c.toNat = 45 || c.toNat = 40 || c.toNat = 41 || c.toNat = 43 ||
    c.toNat = 46

/-- What remains of the trimmed phone after removing the amended claim C7's
formatting characters. -/
def amendedClean (p : String) : List Char :=
  (pyStrip p).toList.filter (fun c => !amendedFmtChar c)


theorem toNat_ofNat_valid (n : Nat) (h : n.isValidChar) : (Char.ofNat n).toNat = n := by
  simp only [Char.ofNat, dif_pos h, Char.ofNatAux, Char.toNat]
  rfl

theorem toLower_toNat (c : Char) :
    (Char.toLower c).toNat = if 65 ≤ c.toNat ∧ c.toNat ≤ 90 then c.toNat + 32 else c.toNat := by
  unfold Char.toLower
  split
  · next h =>
    rw [if_pos (by omega)]
    exact toNat_ofNat_valid _ (Or.inl (by omega))
  · next h =>
    rw [if_neg (by omega)]

theorem toLower_eq_self (c : Char) (h : ¬ (65 ≤ c.toNat ∧ c.toNat ≤ 90)) :
    Char.toLower c = c := by
  unfold Char.toLower
  show (if c.toNat ≥ 65 ∧ c.toNat ≤ 90 then Char.ofNat (c.toNat + 32) else c) = c
  rw [if_neg (by omega)]

theorem toLower_idem (c : Char) : Char.toLower (Char.toLower c) = Char.toLower c := by
  have h1 := toLower_toNat c
  by_cases h : 65 ≤ c.toNat ∧ c.toNat ≤ 90
  · rw [if_pos h] at h1
    exact toLower_eq_self _ (by omega)
  · rw [if_neg h] at h1
    exact toLower_eq_self _ (by omega)

theorem mk_toList (s : String) : String.mk s.toList = s := rfl

theorem toList_mk (cs : List Char) : (String.mk cs).toList = cs := rfl

theorem length_mk (cs : List Char) : (String.mk cs).length = cs.length := rfl

theorem pyLower_toList (s : String) : (pyLower s).toList = s.toList.map Char.toLower := rfl

theorem pyLower_pyLower (s : String) : pyLower (pyLower s) = pyLower s := by
  unfold pyLower
  rw [toList_mk, List.map_map]
  congr 1
  refine List.map_congr_left ?_
  intro a _
  simp [Function.comp, toLower_idem]

theorem dropWhile_eq_self_of (p : Char → Bool) (cs : List Char)
    (h : ∀ c ∈ cs, p c = false) : cs.dropWhile p = cs := by
  cases cs with
  | nil => rfl
  | cons a t => simp [List.dropWhile_cons, h a (by simp)]

theorem pyStripList_eq_self (cs : List Char) (h : ∀ c ∈ cs, isPySpace c = false) :
    pyStripList cs = cs := by
  unfold pyStripList
  rw [dropWhile_eq_self_of _ _ h]
  rw [dropWhile_eq_self_of _ _ (by intro c hc; exact h c (by simpa using hc))]
  simp

theorem pyStrip_eq_self (s : String) (h : ∀ c ∈ s.toList, isPySpace c = false) :
    pyStrip s = s := by
  unfold pyStrip
  rw [pyStripList_eq_self _ h, mk_toList]

theorem splitOnce_eq (sep : Char) :
    ∀ cs a b, splitOnce sep cs = some (a, b) → cs = a ++ sep :: b := by
  intro cs
  induction cs with
  | nil => intro a b h; simp [splitOnce] at h
  | cons c t ih =>
    intro a b h
    simp only [splitOnce] at h
    by_cases hc : c = sep
    · rw [if_pos hc] at h
      simp only [Option.some.injEq, Prod.mk.injEq] at h
      obtain ⟨ha, hb⟩ := h
      subst ha; subst hb; subst hc
      simp
    · rw [if_neg hc] at h
      cases hs : splitOnce sep t with
      | none => rw [hs] at h; simp at h
      | some p =>
        rw [hs] at h
        simp only [Option.map_some', Option.some.injEq, Prod.mk.injEq] at h
        obtain ⟨ha, hb⟩ := h
        have ht := ih p.1 p.2 (by rw [hs])
        subst ha; subst hb
        simp [ht]

theorem isLocalChar_not_space (c : Char) (h : isLocalChar c = true) : isPySpace c = false := by
  simp only [isLocalChar, isAsciiAlpha, isAsciiDigit, Bool.or_eq_true, decide_eq_true_eq] at h
  simp only [isPySpace, decide_eq_false_iff_not]
  omega

theorem isDomainChar_not_space (c : Char) (h : isDomainChar c = true) : isPySpace c = false := by
  simp only [isDomainChar, isAsciiAlpha, isAsciiDigit, Bool.or_eq_true, decide_eq_true_eq] at h
  simp only [isPySpace, decide_eq_false_iff_not]
  omega

theorem emailPattern_no_space (cs : List Char) (h : emailPatternMatch cs = true) :
    ∀ c ∈ cs, isPySpace c = false := by
  unfold emailPatternMatch at h
  cases hs : splitOnce '@' cs with
  | none => rw [hs] at h; simp at h
  | some p =>
    rw [hs] at h
    simp only [Bool.and_eq_true] at h
    obtain ⟨⟨⟨_, h2⟩, h3⟩, _⟩ := h
    have hcs := splitOnce_eq '@' cs p.1 p.2 hs
    intro c hc
    rw [hcs] at hc
    rcases List.mem_append.mp hc with hmem | hmem
    · exact isLocalChar_not_space c (List.all_eq_true.mp h2 c hmem)
    · rcases List.mem_cons.mp hmem with hat | hmem2
      · subst hat; rfl
      · exact isDomainChar_not_space c (List.all_eq_true.mp h3 c hmem2)

theorem validate_email_ok_shape (x y : String) (h : validate_email x = .ok y) :
    y = pyLower (pyStrip x) ∧ ¬ y = "" ∧ ¬ 254 < y.length ∧
    emailPatternMatch y.toList = true ∧ hasDoubleDot y.toList = false ∧
    headIsDot y.toList = false ∧ headIsDot y.toList.reverse = false := by
  simp only [validate_email] at h
  split at h
  · exact absurd h (by simp)
  · split at h
    · exact absurd h (by simp)
    · split at h
      · exact absurd h (by simp)
      · split at h
        · exact absurd h (by simp)
        · split at h
          · exact absurd h (by simp)
          · split at h
            · exact absurd h (by simp)
            · rename_i hc1 hc2 hc3 hc4 hc5 hc6
              simp only [Except.ok.injEq] at h
              subst h
              refine ⟨rfl, hc2, hc3, by simpa using hc4, by simpa using hc5, ?_, ?_⟩
              · simp only [Bool.or_eq_true, not_or] at hc6
                simpa using hc6.1
              · simp only [Bool.or_eq_true, not_or] at hc6
                simpa using hc6.2

/-- C9: `validate_email` is idempotent on accepted inputs — whenever
`validate_email x` succeeds with value `y`, running `validate_email` on `y`
succeeds with the same value `y`. -/
theorem validate_email_idempotent (x y : String) (h : validate_email x = .ok y) :
    validate_email y = .ok y := by
  obtain ⟨hy, h2, h3, h4, h5, h6, h7⟩ := validate_email_ok_shape x y h
  have hnospace : ∀ c ∈ y.toList, isPySpace c = false := emailPattern_no_space _ h4
  have hstrip : pyStrip y = y := pyStrip_eq_self y hnospace
  have hlow : pyLower y = y := by rw [hy]; exact pyLower_pyLower _
  simp only [String.toList] at h4 h5 h6 h7
  simp only [validate_email]
  rw [if_neg h2, hstrip, hlow, if_neg h2, if_neg h3,
    if_neg (by simp [h4]), if_neg (by simp [h5]), if_neg (by simp [h6, h7])]

/-- Witness for C9 at a concrete accepted email. -/
theorem validate_email_idempotent_witness :
    validate_email "john@example.com" = .ok "john@example.com" :=
  validate_email_idempotent " JOHN@Example.com" "john@example.com" (by rfl)

theorem amendedNameChar_eq (c : Char) : amendedNameChar c = isNameChar c := by
  have hiff : amendedNameChar c = true ↔ isNameChar c = true := by
    simp only [amendedNameChar, isNameChar, isPySpace, isAsciiAlpha, isAsciiDigit,
      Bool.or_eq_true, decide_eq_true_eq]
    omega
  cases h1 : amendedNameChar c <;> cases h2 : isNameChar c <;> simp_all

theorem validate_name_cases (name : String) :
    (validate_name name = .ok (pyStrip name) ∧
      ¬ (name = "" ∨ pyStrip name = "" ∨ (pyStrip name).length < 2 ∨
          100 < (pyStrip name).length ∨ ∃ c ∈ (pyStrip name).toList, isNameChar c = false))
    ∨ ((∃ v r, validate_name name = .error (.invalidField "name" v r)) ∧
        (name = "" ∨ pyStrip name = "" ∨ (pyStrip name).length < 2 ∨
          100 < (pyStrip name).length ∨ ∃ c ∈ (pyStrip name).toList, isNameChar c = false)) := by
  simp only [validate_name]
  by_cases h1 : name = ""
  · exact Or.inr ⟨⟨name, "Name is required", by rw [if_pos h1]⟩, Or.inl h1⟩
  · rw [if_neg h1]
    by_cases h2 : pyStrip name = ""
    · exact Or.inr ⟨⟨name, _, by rw [if_pos h2]⟩, Or.inr (Or.inl h2)⟩
    · rw [if_neg h2]
      by_cases h3 : (pyStrip name).length < 2
      · exact Or.inr ⟨⟨name, _, by rw [if_pos h3]⟩, Or.inr (Or.inr (Or.inl h3))⟩
      · rw [if_neg h3]
        by_cases h4 : 100 < (pyStrip name).length
        · exact Or.inr ⟨⟨name, _, by rw [if_pos h4]⟩, Or.inr (Or.inr (Or.inr (Or.inl h4)))⟩
        · rw [if_neg h4]
          by_cases h5 : (pyStrip name).toList.all isNameChar = true
          · rw [if_neg (not_not_intro h5)]
            refine Or.inl ⟨rfl, ?_⟩
            push_neg
            refine ⟨h1, h2, by omega, by omega, ?_⟩
            intro c hc
            simp [List.all_eq_true.mp h5 c hc]
          · rw [if_pos h5]
            refine Or.inr ⟨⟨name, _, rfl⟩, ?_⟩
            have hex : ∃ c ∈ (pyStrip name).toList, isNameChar c = false := by
              by_contra hno
              push_neg at hno
              refine h5 (List.all_eq_true.mpr (fun c hc => ?_))
              have := hno c hc
              cases hb : isNameChar c
              · exact absurd hb this
              · rfl
            exact Or.inr (Or.inr (Or.inr (Or.inr hex)))

/-- C8 (amended): `validate_name` fails with `InvalidField` exactly when the
input is empty, or after trimming is empty, shorter than 2, longer than 100,
or contains a character outside letters, digits, whitespace
(space/tab/LF/VT/FF/CR), hyphen, apostrophe, and dot; otherwise it returns
the trimmed string.  (The original claim allowed only the space character;
the code's regex class `\s` accepts every whitespace character.) -/
theorem validate_name_characterization (name : String) :
    ((∃ v r, validate_name name = .error (.invalidField "name" v r)) ↔
      (name = "" ∨ pyStrip name = "" ∨ (pyStrip name).length < 2 ∨
        100 < (pyStrip name).length ∨ ∃ c ∈ (pyStrip name).toList, amendedNameChar c = false))
    ∧ (¬ (name = "" ∨ pyStrip name = "" ∨ (pyStrip name).length < 2 ∨
        100 < (pyStrip name).length ∨ ∃ c ∈ (pyStrip name).toList, amendedNameChar c = false) →
      validate_name name = .ok (pyStrip name)) := by
  have hsame :
      (∃ c ∈ (pyStrip name).toList, amendedNameChar c = false) ↔
        ∃ c ∈ (pyStrip name).toList, isNameChar c = false := by
    constructor
    · rintro ⟨c, hc, hf⟩; exact ⟨c, hc, by rw [← amendedNameChar_eq c]; exact hf⟩
    · rintro ⟨c, hc, hf⟩; exact ⟨c, hc, by rw [amendedNameChar_eq c]; exact hf⟩
  simp only [hsame]
  rcases validate_name_cases name with ⟨hok, hnf⟩ | ⟨herr, hf⟩
  · refine ⟨⟨fun hex => absurd ?_ hnf, fun hcond => absurd hcond hnf⟩, fun _ => hok⟩
    obtain ⟨v, r, he⟩ := hex
    rw [hok] at he
    exact absurd he (by simp)
  · exact ⟨⟨fun _ => hf, fun _ => herr⟩, fun hn => absurd hf hn⟩

/-- Witness for C8 at concrete inputs: a valid name is returned trimmed, and
a too-short name is rejected. -/
theorem validate_name_characterization_witness :
    validate_name " Jo " = .ok "Jo" ∧
      ∃ v r, validate_name "A" = .error (.invalidField "name" v r) :=
  ⟨by
    have := (validate_name_characterization " Jo ").2 (by decide)
    simpa using this,
   (validate_name_characterization "A").1.mpr (by decide)⟩

/-- C8 counterexample to the claim as stated: `"Jo\tDo"` contains a tab,
which is outside the claim's allowed set (letters, digits, space, hyphen,
apostrophe, dot), so per the claim `validate_name` must fail — but the code
accepts it (the regex class `\s` matches the tab). -/
theorem validate_name_claim_counterexample :
    validate_name "Jo\tDo" = .ok "Jo\tDo" ∧
      ∃ c ∈ "Jo\tDo".toList, claimNameChar c = false := by
  refine ⟨by rfl, ⟨'\t', by decide, by decide⟩⟩

theorem amendedFmtChar_eq (c : Char) : amendedFmtChar c = isFmtChar c := by
  have hiff : amendedFmtChar c = true ↔ isFmtChar c = true := by
    simp only [amendedFmtChar, isFmtChar, isPySpace, Bool.or_eq_true, decide_eq_true_eq]
    omega
  cases h1 : amendedFmtChar c <;> cases h2 : isFmtChar c <;> simp_all

theorem amendedClean_eq (p : String) : amendedClean p = phoneClean (pyStrip p).toList := by
  unfold amendedClean phoneClean
  refine List.filter_congr (fun c _ => ?_)
  rw [amendedFmtChar_eq]

theorem validate_phone_cases (p : String) (ht : ¬ pyStrip p = "") :
    (validate_phone (some p) = .ok (some (pyStrip p)) ∧
      ¬ (20 < (pyStrip p).length ∨
          (∃ c ∈ phoneClean (pyStrip p).toList, isAsciiDigit c = false) ∨
          ((phoneClean (pyStrip p).toList).filter isAsciiDigit).length < 8 ∨
          15 < ((phoneClean (pyStrip p).toList).filter isAsciiDigit).length))
    ∨ ((∃ v r, validate_phone (some p) = .error (.invalidField "phone" v r)) ∧
        (20 < (pyStrip p).length ∨
          (∃ c ∈ phoneClean (pyStrip p).toList, isAsciiDigit c = false) ∨
          ((phoneClean (pyStrip p).toList).filter isAsciiDigit).length < 8 ∨
          15 < ((phoneClean (pyStrip p).toList).filter isAsciiDigit).length)) := by
  simp only [validate_phone]
  rw [if_neg ht]
  by_cases h2 : 20 < (pyStrip p).length
  · exact Or.inr ⟨⟨p, _, by rw [if_pos h2]⟩, Or.inl h2⟩
  · rw [if_neg h2]
    by_cases h3 : pyIsdigit (phoneClean (pyStrip p).toList) = true
    · rw [if_neg (not_not_intro h3)]
      obtain ⟨hne, hall⟩ := by
        simpa only [pyIsdigit, Bool.and_eq_true, Bool.not_eq_true'] using h3
      have hfilter : (phoneClean (pyStrip p).toList).filter isAsciiDigit =
          phoneClean (pyStrip p).toList :=
        List.filter_eq_self.mpr (List.all_eq_true.mp hall)
      by_cases h4 : (phoneClean (pyStrip p).toList).length < 8
      · refine Or.inr ⟨⟨p, _, by rw [if_pos h4]⟩, ?_⟩
        rw [hfilter]
        exact Or.inr (Or.inr (Or.inl h4))
      · rw [if_neg h4]
        by_cases h5 : 15 < (phoneClean (pyStrip p).toList).length
        · refine Or.inr ⟨⟨p, _, by rw [if_pos h5]⟩, ?_⟩
          rw [hfilter]
          exact Or.inr (Or.inr (Or.inr h5))
        · rw [if_neg h5]
          refine Or.inl ⟨rfl, ?_⟩
          push_neg
          rw [hfilter]
          refine ⟨by omega, ?_, by omega, by omega⟩
          intro c hc
          simp [List.all_eq_true.mp hall c hc]
    · rw [if_pos h3]
      refine Or.inr ⟨⟨p, _, rfl⟩, ?_⟩
      simp only [pyIsdigit, Bool.and_eq_true, not_and, Bool.not_eq_true] at h3
      by_cases he : (phoneClean (pyStrip p).toList).isEmpty = true
      · have : phoneClean (pyStrip p).toList = [] := List.isEmpty_eq_true.mp he
        rw [this]
        exact Or.inr (Or.inr (Or.inl (by simp)))
      · have hallf : (phoneClean (pyStrip p).toList).all isAsciiDigit = false := by
          have := h3 (by cases hb : (phoneClean (pyStrip p).toList).isEmpty
                         · rfl
                         · exact absurd hb he)
          exact this
        obtain ⟨c, hc, hcd⟩ := List.all_eq_false.mp hallf
        exact Or.inr (Or.inl ⟨c, hc, by simpa using hcd⟩)

/-- C7 (amended): `validate_phone` maps `None` and whitespace-only input to
"absent"; otherwise it fails with `InvalidField` exactly when the trimmed
value exceeds 20 characters, or removing the formatting characters —
whitespace (space/tab/LF/VT/FF/CR), hyphen, parentheses, plus, dot — leaves
a non-digit character, or the remaining digit count is below 8 or above 15;
on success it returns the trimmed original.  (The original claim listed only
the space character among the formatting characters; the code's regex class
`\s` strips every whitespace character.) -/
theorem validate_phone_characterization :
    validate_phone none = .ok none
    ∧ (∀ p, pyStrip p = "" → validate_phone (some p) = .ok none)
    ∧ (∀ p, ¬ pyStrip p = "" →
        (((∃ v r, validate_phone (some p) = .error (.invalidField "phone" v r)) ↔
            (20 < (pyStrip p).length ∨
              (∃ c ∈ amendedClean p, isAsciiDigit c = false) ∨
              ((amendedClean p).filter isAsciiDigit).length < 8 ∨
              15 < ((amendedClean p).filter isAsciiDigit).length))
          ∧ (¬ (20 < (pyStrip p).length ∨
              (∃ c ∈ amendedClean p, isAsciiDigit c = false) ∨
              ((amendedClean p).filter isAsciiDigit).length < 8 ∨
              15 < ((amendedClean p).filter isAsciiDigit).length) →
            validate_phone (some p) = .ok (some (pyStrip p))))) := by
  refine ⟨rfl, fun p hp => by simp only [validate_phone]; rw [if_pos hp], fun p ht => ?_⟩
  rw [show amendedClean p = phoneClean (pyStrip p).toList from amendedClean_eq p]
  rcases validate_phone_cases p ht with ⟨hok, hnf⟩ | ⟨herr, hf⟩
  · refine ⟨⟨fun hex => ?_, fun hcond => absurd hcond hnf⟩, fun _ => hok⟩
    obtain ⟨v, r, he⟩ := hex
    rw [hok] at he
    exact absurd he (by simp)
  · exact ⟨⟨fun _ => hf, fun _ => herr⟩, fun hn => absurd hf hn⟩

/-- Witness for C7 at concrete inputs: a well-formed phone is returned
trimmed, and a phone with letters is rejected. -/
theorem validate_phone_characterization_witness :
    validate_phone (some " +1-234-567-8901 ") = .ok (some "+1-234-567-8901") ∧
      ∃ v r, validate_phone (some "123-abc-7890") = .error (.invalidField "phone" v r) :=
  ⟨by
    have := ((validate_phone_characterization.2.2 " +1-234-567-8901 " (by decide)).2 (by decide))
    simpa using this,
   ((validate_phone_characterization.2.2 "123-abc-7890" (by decide)).1).mpr
     (Or.inr (Or.inl ⟨'a', by decide, by decide⟩))⟩

/-- C7 counterexample to the claim as stated: `"1234\t5678"` contains a tab;
removing only the claim's formatting characters (space, hyphen, parentheses,
plus, dot) leaves that tab, a non-digit, so per the claim `validate_phone`
must fail — but the code accepts it (its regex class `\s` also strips the
tab, leaving 8 digits). -/
theorem validate_phone_claim_counterexample :
    validate_phone (some "1234\t5678") = .ok (some "1234\t5678") ∧
      ∃ c ∈ "1234\t5678".toList.filter (fun c => !claimFmtChar c), isAsciiDigit c = false := by
  refine ⟨by rfl, ⟨'\t', by decide, by decide⟩⟩

theorem validate_member_data_ok (n e : String) (p : Option String)
    (vn ve : String) (vp : Option String)
    (h : validate_member_data n e p = .ok (vn, ve, vp)) :
    validate_name n = .ok vn ∧ validate_email e = .ok ve ∧ validate_phone p = .ok vp := by
  unfold validate_member_data at h
  cases h1 : validate_name n with
  | error e1 => rw [h1] at h; exact absurd h (by simp)
  | ok a =>
    rw [h1] at h
    cases h2 : validate_email e with
    | error e2 => rw [h2] at h; exact absurd h (by simp)
    | ok b =>
      rw [h2] at h
      cases h3 : validate_phone p with
      | error e3 => rw [h3] at h; exact absurd h (by simp)
      | ok c =>
        rw [h3] at h
        simp only [Except.ok.injEq, Prod.mk.injEq] at h
        obtain ⟨hv1, hv2, hv3⟩ := h
        subst hv1; subst hv2; subst hv3
        exact ⟨rfl, rfl, rfl⟩

theorem validate_member_data_ok_of (n e : String) (p : Option String)
    (vn ve : String) (vp : Option String)
    (h1 : validate_name n = .ok vn) (h2 : validate_email e = .ok ve)
    (h3 : validate_phone p = .ok vp) :
    validate_member_data n e p = .ok (vn, ve, vp) := by
  unfold validate_member_data
  rw [h1, h2, h3]

theorem insertCommit_ok_shape (s : Store) (m : Member) (s2 : Store)
    (h : insertCommit s m = .ok s2) :
    s2.members = s.members ++ [m] ∧ s2.nextId = s.nextId + 1 := by
  unfold insertCommit at h
  split at h
  · exact absurd h (by simp)
  · split at h
    · exact absurd h (by simp)
    · simp only [Except.ok.injEq] at h
      subst h
      exact ⟨rfl, rfl⟩

theorem create_insert_error_store (scommit : Store) (vn ve : String) (vp : Option String)
    (e : MemberError) (h : (create_insert scommit vn ve vp).1 = .error e) :
    (create_insert scommit vn ve vp).2 = scommit := by
  simp only [create_insert] at h ⊢
  cases hc : insertCommit scommit { id := scommit.nextId, name := vn, email := ve, phone := vp } with
  | ok s2 => rw [hc] at h; exact absurd h (by simp)
  | error v => rfl

/-- C1: `create_member` performs its steps in the fixed order — validation
first (its error propagates untouched), then the email pre-check, then the
phone pre-check (only when a validated phone is present), then insert and
commit; a commit-time uniqueness violation rolls back and is re-raised as
`AlreadyExists` for the field the store identifies, and an unattributable
constraint violation becomes a `StoreError`.  Pre-checks read the `spre`
snapshot while the commit runs against `scommit`, so the commit-time branch
covers the race the claim describes. -/
theorem create_member_sequence :
    (∀ s1 s2 : Store, ∀ d : MemberCreate, ∀ e : MemberError,
      validate_member_data d.name d.email d.phone = .error e →
      create_member_racy s1 s2 d = (.error e, s2))
    ∧ (∀ s1 s2 : Store, ∀ d : MemberCreate, ∀ vn ve : String, ∀ vp : Option String, ∀ m : Member,
        validate_member_data d.name d.email d.phone = .ok (vn, ve, vp) →
        get_member_by_email s1 ve = some m →
        create_member_racy s1 s2 d = (.error (.alreadyExists "email" ve), s2))
    ∧ (∀ s1 s2 : Store, ∀ d : MemberCreate, ∀ vn ve p : String, ∀ m : Member,
        validate_member_data d.name d.email d.phone = .ok (vn, ve, some p) →
        get_member_by_email s1 ve = none →
        get_member_by_phone s1 p = some m →
        create_member_racy s1 s2 d = (.error (.alreadyExists "phone" p), s2))
    ∧ (∀ s1 s2 : Store, ∀ d : MemberCreate, ∀ vn ve : String, ∀ vp : Option String,
        validate_member_data d.name d.email d.phone = .ok (vn, ve, vp) →
        get_member_by_email s1 ve = none →
        (∀ p, vp = some p → get_member_by_phone s1 p = none) →
        create_member_racy s1 s2 d = create_insert s2 vn ve vp)
    ∧ (∀ s2 s3 : Store, ∀ vn ve : String, ∀ vp : Option String,
        insertCommit s2 { id := s2.nextId, name := vn, email := ve, phone := vp } = .ok s3 →
        create_insert s2 vn ve vp =
          (.ok { id := s2.nextId, name := vn, email := ve, phone := vp }, s3)
        ∧ s3.members = s2.members ++ [{ id := s2.nextId, name := vn, email := ve, phone := vp }])
    ∧ (∀ s2 : Store, ∀ vn ve : String, ∀ vp : Option String,
        insertCommit s2 { id := s2.nextId, name := vn, email := ve, phone := vp } = .error .email →
        create_insert s2 vn ve vp = (.error (.alreadyExists "email" ve), s2))
    ∧ (∀ s2 : Store, ∀ vn ve : String, ∀ vp : Option String,
        insertCommit s2 { id := s2.nextId, name := vn, email := ve, phone := vp } = .error .phone →
        create_insert s2 vn ve vp = (.error (.alreadyExists "phone" (vp.getD "")), s2))
    ∧ (∀ ve : String, ∀ vp : Option String,
        integrityErrorCreate .other ve vp = .storeError "create_member" "Constraint violation") := by
  refine ⟨?_, ?_, ?_, ?_, ?_, ?_, ?_, fun _ _ => rfl⟩
  · intro s1 s2 d e h
    unfold create_member_racy
    rw [h]
  · intro s1 s2 d vn ve vp m hv hm
    simp only [create_member_racy, hv, hm]
  · intro s1 s2 d vn ve p m hv he hp
    simp only [create_member_racy, hv, he, hp]
  · intro s1 s2 d vn ve vp hv he hp
    cases vp with
    | none => simp only [create_member_racy, hv, he]
    | some p => simp only [create_member_racy, hv, he, hp p rfl]
  · intro s2 s3 vn ve vp hc
    refine ⟨?_, (insertCommit_ok_shape _ _ _ hc).1⟩
    simp only [create_insert]
    rw [hc]
  · intro s2 vn ve vp hc
    simp only [create_insert]
    rw [hc]
    rfl
  · intro s2 vn ve vp hc
    simp only [create_insert]
    rw [hc]
    rfl

/-- Witness for C1: a validation failure propagates untouched, and a
pre-check hit on the email of an existing member fails with
`AlreadyExists(email)`. -/
theorem create_member_sequence_witness :
    create_member_racy ⟨[], 0⟩ ⟨[], 0⟩ ⟨"A", "x@y.com", none⟩ =
      (.error (.invalidField "name" "A" "Name must be at least 2 characters long"), ⟨[], 0⟩)
    ∧ create_member_racy ⟨[⟨1, "Jo", "x@y.com", none⟩], 2⟩ ⟨[⟨1, "Jo", "x@y.com", none⟩], 2⟩
        ⟨"Jane Doe", "X@Y.com", none⟩ =
      (.error (.alreadyExists "email" "x@y.com"), ⟨[⟨1, "Jo", "x@y.com", none⟩], 2⟩) :=
  ⟨create_member_sequence.1 _ _ _ _ (by rfl),
   create_member_sequence.2.1 _ _ _ "Jane Doe" "x@y.com" none ⟨1, "Jo", "x@y.com", none⟩
     (by rfl) (by rfl)⟩

/-- C2: atomicity — whenever a sequential `create_member`, `update_member`
or `delete_member` call returns an error of any kind, the resulting store
equals the store before the call (every error path rolled back). -/
theorem writes_rollback_on_error :
    (∀ s : Store, ∀ d : MemberCreate, ∀ e : MemberError,
      (create_member s d).1 = .error e → (create_member s d).2 = s)
    ∧ (∀ s : Store, ∀ mid : Nat, ∀ d : MemberUpdate, ∀ e : MemberError,
        (update_member s mid d).1 = .error e → (update_member s mid d).2 = s)
    ∧ (∀ s : Store, ∀ mid : Nat, ∀ e : MemberError,
        (delete_member s mid).1 = .error e → (delete_member s mid).2 = s) := by
  refine ⟨?_, ?_, ?_⟩
  · intro s d e h
    cases hv : validate_member_data d.name d.email d.phone with
    | error e2 => simp only [create_member, create_member_racy, hv]
    | ok t =>
      obtain ⟨vn, ve, vp⟩ := t
      simp only [create_member, create_member_racy, hv] at h ⊢
      cases he : get_member_by_email s ve with
      | some m => simp only [he]
      | none =>
        simp only [he] at h ⊢
        cases vp with
        | none => exact create_insert_error_store s vn ve none e h
        | some p =>
          cases hp : get_member_by_phone s p with
          | some m => simp only [hp]
          | none =>
            simp only [hp] at h ⊢
            exact create_insert_error_store s vn ve (some p) e h
  · intro s mid d e h
    cases hg : get_member_by_id s mid with
    | none => simp only [update_member, hg]
    | some ex =>
      simp only [update_member, hg] at h ⊢
      cases hn : updName d with
      | error e2 => simp only [hn]
      | ok uN =>
        simp only [hn] at h ⊢
        cases he : updEmail s mid d with
        | error e2 => simp only [he]
        | ok uE =>
          simp only [he] at h ⊢
          cases hp : updPhone s mid d with
          | error e2 => simp only [hp]
          | ok uP =>
            simp only [hp] at h ⊢
            cases hc : updateCommit s mid uE uP (applyUpdate ex uN uE uP) with
            | error v => simp only [hc]
            | ok s2 =>
              simp only [hc] at h
              exact absurd h (by simp)
  · intro s mid e h
    cases hg : get_member_by_id s mid with
    | none => simp only [delete_member, hg]
    | some ex =>
      simp only [delete_member, hg] at h
      exact absurd h (by simp)

/-- Witness for C2: a duplicate-email create fails and leaves the
one-member store exactly as it was. -/
theorem writes_rollback_on_error_witness :
    (create_member ⟨[⟨1, "Jo", "x@y.com", none⟩], 2⟩ ⟨"Jane Doe", "x@y.com", none⟩).2 =
      ⟨[⟨1, "Jo", "x@y.com", none⟩], 2⟩ :=
  writes_rollback_on_error.1 ⟨[⟨1, "Jo", "x@y.com", none⟩], 2⟩ ⟨"Jane Doe", "x@y.com", none⟩
    (.alreadyExists "email" "x@y.com") (by rfl)

theorem create_insert_ok_shape (sc : Store) (vn ve : String) (vp : Option String)
    (m : Member) (s2 : Store) (h : create_insert sc vn ve vp = (.ok m, s2)) :
    m = { id := sc.nextId, name := vn, email := ve, phone := vp } ∧
    s2.members = sc.members ++ [m] ∧ s2.nextId = sc.nextId + 1 := by
  simp only [create_insert] at h
  cases hc : insertCommit sc { id := sc.nextId, name := vn, email := ve, phone := vp } with
  | error v => rw [hc] at h; exact absurd h (by simp)
  | ok s3 =>
    rw [hc] at h
    simp only [Prod.mk.injEq, Except.ok.injEq] at h
    obtain ⟨hm, hs⟩ := h
    subst hm; subst hs
    obtain ⟨h1, h2⟩ := insertCommit_ok_shape _ _ _ hc
    exact ⟨rfl, h1, h2⟩

theorem create_member_ok_shape (s : Store) (d : MemberCreate) (m : Member) (s2 : Store)
    (h : create_member s d = (.ok m, s2)) :
    validate_member_data d.name d.email d.phone = .ok (m.name, m.email, m.phone) ∧
    m.id = s.nextId ∧ get_member_by_email s m.email = none ∧
    s2.members = s.members ++ [m] ∧ s2.nextId = s.nextId + 1 := by
  cases hv : validate_member_data d.name d.email d.phone with
  | error e2 =>
    simp only [create_member, create_member_racy, hv] at h
    exact absurd h (by simp)
  | ok t =>
    obtain ⟨vn, ve, vp⟩ := t
    simp only [create_member, create_member_racy, hv] at h
    cases he : get_member_by_email s ve with
    | some m2 => rw [he] at h; exact absurd h (by simp)
    | none =>
      simp only [he] at h
      have hfin :
          m = { id := s.nextId, name := vn, email := ve, phone := vp } ∧
          s2.members = s.members ++ [m] ∧ s2.nextId = s.nextId + 1 := by
        cases vp with
        | none => exact create_insert_ok_shape s vn ve none m s2 h
        | some p =>
          cases hp : get_member_by_phone s p with
          | some m3 => simp [hp] at h
          | none =>
            simp only [hp] at h
            exact create_insert_ok_shape s vn ve (some p) m s2 h
      obtain ⟨hm, hs1, hs2⟩ := hfin
      subst hm
      exact ⟨rfl, rfl, he, hs1, hs2⟩

theorem create_then_find_by_email (s : Store) (d : MemberCreate) (m : Member) (s2 : Store)
    (h : create_member s d = (.ok m, s2)) :
    get_member_by_email s2 m.email = some m ∧ m.email = pyLower (pyStrip d.email) := by
  obtain ⟨hv, _, he, hs1, _⟩ := create_member_ok_shape s d m s2 h
  have hve : validate_email d.email = .ok m.email :=
    (validate_member_data_ok _ _ _ _ _ _ hv).2.1
  have hlow : m.email = pyLower (pyStrip d.email) := (validate_email_ok_shape _ _ hve).1
  have hfix : pyLower m.email = m.email := by
    rw [hlow]; exact pyLower_pyLower _
  refine ⟨?_, hlow⟩
  unfold get_member_by_email
  rw [hs1, List.find?_append]
  have h1 : s.members.find? (fun x => x.email == pyLower m.email) = none := by
    simpa [get_member_by_email] using he
  rw [h1]
  simp [hfix]

/-- C3: after a successful `create_member`, `get_member_by_email` on the
member's email returns that member, the stored email is the trimmed and
lower-cased form of the input, and a second create whose email validates to
the same stored email (the same email in any letter case) fails with
`AlreadyExists(email)` and leaves the store unchanged. -/
theorem create_email_uniqueness :
    (∀ s : Store, ∀ d : MemberCreate, ∀ m : Member, ∀ s2 : Store,
      create_member s d = (.ok m, s2) →
      get_member_by_email s2 m.email = some m ∧ m.email = pyLower (pyStrip d.email))
    ∧ (∀ s : Store, ∀ d : MemberCreate, ∀ m : Member, ∀ s2 : Store, ∀ d2 : MemberCreate,
        ∀ vn2 : String, ∀ vp2 : Option String,
        create_member s d = (.ok m, s2) →
        validate_name d2.name = .ok vn2 →
        validate_email d2.email = .ok m.email →
        validate_phone d2.phone = .ok vp2 →
        create_member s2 d2 = (.error (.alreadyExists "email" m.email), s2)) := by
  refine ⟨fun s d m s2 h => create_then_find_by_email s d m s2 h, ?_⟩
  intro s d m s2 d2 vn2 vp2 h hn2 he2 hp2
  have hfind := (create_then_find_by_email s d m s2 h).1
  have hv2 := validate_member_data_ok_of d2.name d2.email d2.phone vn2 m.email vp2 hn2 he2 hp2
  simp only [create_member, create_member_racy, hv2, hfind]

/-- Witness for C3 at the spec's scenario: creating John Doe with
`"JOHN@EXAMPLE.COM"` stores `"john@example.com"`, a lookup finds him, and a
mixed-case duplicate create fails with `AlreadyExists(email)`. -/
theorem create_email_uniqueness_witness :
    get_member_by_email ⟨[⟨0, "John Doe", "john@example.com", some "+1-234-567-8901"⟩], 1⟩
        "john@example.com" =
      some ⟨0, "John Doe", "john@example.com", some "+1-234-567-8901"⟩
    ∧ create_member ⟨[⟨0, "John Doe", "john@example.com", some "+1-234-567-8901"⟩], 1⟩
        ⟨"Jane Doe", "John@Example.COM", none⟩ =
      (.error (.alreadyExists "email" "john@example.com"),
        ⟨[⟨0, "John Doe", "john@example.com", some "+1-234-567-8901"⟩], 1⟩) :=
  ⟨(create_email_uniqueness.1 ⟨[], 0⟩ ⟨"John Doe", "JOHN@EXAMPLE.COM", some "+1-234-567-8901"⟩
      ⟨0, "John Doe", "john@example.com", some "+1-234-567-8901"⟩
      ⟨[⟨0, "John Doe", "john@example.com", some "+1-234-567-8901"⟩], 1⟩ (by rfl)).1,
   create_email_uniqueness.2 ⟨[], 0⟩ ⟨"John Doe", "JOHN@EXAMPLE.COM", some "+1-234-567-8901"⟩
      ⟨0, "John Doe", "john@example.com", some "+1-234-567-8901"⟩
      ⟨[⟨0, "John Doe", "john@example.com", some "+1-234-567-8901"⟩], 1⟩
      ⟨"Jane Doe", "John@Example.COM", none⟩ "Jane Doe" none
      (by rfl) (by rfl) (by rfl) (by rfl)⟩

theorem updName_none (d : MemberUpdate) (h : d.name = none) : updName d = .ok none := by
  unfold updName
  rw [h]

theorem updEmail_none (s : Store) (mid : Nat) (d : MemberUpdate) (h : d.email = none) :
    updEmail s mid d = .ok none := by
  unfold updEmail
  rw [h]

theorem updPhone_none (s : Store) (mid : Nat) (d : MemberUpdate) (h : d.phone = none) :
    updPhone s mid d = .ok none := by
  unfold updPhone
  rw [h]

theorem find?_replace (l : List Member) (mid : Nat) (old newm : Member)
    (hf : l.find? (fun m => m.id == mid) = some old) (hid : newm.id = mid) :
    (l.map (fun x => if x.id = mid then newm else x)).find? (fun m => m.id == mid) =
      some newm := by
  induction l with
  | nil => simp at hf
  | cons a t ih =>
    by_cases ha : a.id = mid
    · simp only [List.map_cons, if_pos ha]
      exact List.find?_cons_of_pos _ (by simp [hid])
    · simp only [List.map_cons, if_neg ha]
      rw [List.find?_cons_of_neg _ (by simp [ha])]
      apply ih
      rw [List.find?_cons_of_neg _ (by simp [ha])] at hf
      exact hf

theorem updateCommit_ok_shape (s : Store) (mid : Nat) (uE : Option String)
    (uP : Option (Option String)) (newm : Member) (s2 : Store)
    (h : updateCommit s mid uE uP newm = .ok s2) :
    s2.members = s.members.map (fun x => if x.id = mid then newm else x) ∧
    s2.nextId = s.nextId := by
  unfold updateCommit at h
  split at h
  · exact absurd h (by simp)
  · split at h
    · exact absurd h (by simp)
    · simp only [Except.ok.injEq] at h
      subst h
      exact ⟨rfl, rfl⟩

theorem update_member_ok_shape (s : Store) (mid : Nat) (d : MemberUpdate) (old m : Member)
    (s2 : Store) (hold : get_member_by_id s mid = some old)
    (h : update_member s mid d = (.ok m, s2)) :
    ∃ uN uE uP, updName d = .ok uN ∧ updEmail s mid d = .ok uE ∧ updPhone s mid d = .ok uP ∧
      m = applyUpdate old uN uE uP ∧
      s2.members = s.members.map (fun x => if x.id = mid then m else x) := by
  simp only [update_member, hold] at h
  cases hn : updName d with
  | error e => simp [hn] at h
  | ok uN =>
    simp only [hn] at h
    cases he : updEmail s mid d with
    | error e => simp [he] at h
    | ok uE =>
      simp only [he] at h
      cases hp : updPhone s mid d with
      | error e => simp [hp] at h
      | ok uP =>
        simp only [hp] at h
        cases hc : updateCommit s mid uE uP (applyUpdate old uN uE uP) with
        | error v => simp [hc] at h
        | ok s3 =>
          simp only [hc] at h
          simp only [Prod.mk.injEq, Except.ok.injEq] at h
          obtain ⟨hm, hs⟩ := h
          subst hm
          subst hs
          obtain ⟨h1, _⟩ := updateCommit_ok_shape s mid uE uP _ _ hc
          exact ⟨uN, uE, uP, rfl, rfl, rfl, rfl, h1⟩

/-- C4: partial-update semantics — for every successful update, each field
not supplied in the payload retains its prior value (name, email and phone
each individually: an unsupplied phone is retained even when the email is
supplied, and vice versa), and a subsequent `get_member_by_id` returns the
updated row carrying those retained values. -/
theorem update_partial_frame :
    ∀ s : Store, ∀ mid : Nat, ∀ d : MemberUpdate, ∀ old m : Member, ∀ s2 : Store,
      get_member_by_id s mid = some old →
      update_member s mid d = (.ok m, s2) →
      (d.name = none → m.name = old.name)
      ∧ (d.email = none → m.email = old.email)
      ∧ (d.phone = none → m.phone = old.phone)
      ∧ get_member_by_id s2 mid = some m := by
  intro s mid d old m s2 hold h
  obtain ⟨uN, uE, uP, hn, he, hp, hm, hs2⟩ := update_member_ok_shape s mid d old m s2 hold h
  have holdmem : s.members.find? (fun x => x.id == mid) = some old := by
    simpa [get_member_by_id] using hold
  have hoid : old.id = mid := by simpa using List.find?_some holdmem
  refine ⟨?_, ?_, ?_, ?_⟩
  · intro hdn
    have huN : uN = none := by
      have h2 := updName_none d hdn
      rw [hn] at h2
      simpa using h2
    subst huN
    simp [hm, applyUpdate]
  · intro hde
    have huE : uE = none := by
      have h2 := updEmail_none s mid d hde
      rw [he] at h2
      simpa using h2
    subst huE
    simp [hm, applyUpdate]
  · intro hdp
    have huP : uP = none := by
      have h2 := updPhone_none s mid d hdp
      rw [hp] at h2
      simpa using h2
    subst huP
    simp [hm, applyUpdate]
  · unfold get_member_by_id
    rw [hs2]
    refine find?_replace s.members mid old m holdmem ?_
    rw [hm]
    exact hoid

/-- Witness for C4: a name-only update of a stored member retains email and
phone (the unsupplied fields), and the row is found by id afterwards. -/
theorem update_partial_frame_witness :
    ((⟨some "Xavier", none, none⟩ : MemberUpdate).name = none →
      (Member.mk 1 "Xavier" "x@y.com" (some "12345678")).name =
        (Member.mk 1 "Jo" "x@y.com" (some "12345678")).name)
    ∧ ((⟨some "Xavier", none, none⟩ : MemberUpdate).email = none →
      (Member.mk 1 "Xavier" "x@y.com" (some "12345678")).email =
        (Member.mk 1 "Jo" "x@y.com" (some "12345678")).email)
    ∧ ((⟨some "Xavier", none, none⟩ : MemberUpdate).phone = none →
      (Member.mk 1 "Xavier" "x@y.com" (some "12345678")).phone =
        (Member.mk 1 "Jo" "x@y.com" (some "12345678")).phone)
    ∧ get_member_by_id ⟨[⟨1, "Xavier", "x@y.com", some "12345678"⟩], 2⟩ 1 =
        some ⟨1, "Xavier", "x@y.com", some "12345678"⟩ :=
  update_partial_frame ⟨[⟨1, "Jo", "x@y.com", some "12345678"⟩], 2⟩ 1
    ⟨some "Xavier", none, none⟩ ⟨1, "Jo", "x@y.com", some "12345678"⟩
    ⟨1, "Xavier", "x@y.com", some "12345678"⟩ ⟨[⟨1, "Xavier", "x@y.com", some "12345678"⟩], 2⟩
    (by rfl) (by rfl)

/-- C6: the uniqueness pre-check of `update_member` excludes the row being
updated — if every store row holding the supplied (validated) email, resp.
phone, is the row with the updated id itself, the update succeeds with that
value (no `AlreadyExists` failure). -/
theorem update_excludes_self :
    (∀ s : Store, ∀ mid : Nat, ∀ d : MemberUpdate, ∀ old : Member, ∀ e ve : String,
      get_member_by_id s mid = some old →
      d.name = none → d.phone = none → d.email = some e →
      validate_email e = .ok ve →
      (∀ x ∈ s.members, x.email = ve → x.id = mid) →
      ∃ m s2, update_member s mid d = (.ok m, s2) ∧ m.email = ve)
    ∧ (∀ s : Store, ∀ mid : Nat, ∀ d : MemberUpdate, ∀ old : Member, ∀ p q : String,
        get_member_by_id s mid = some old →
        d.name = none → d.email = none → d.phone = some p →
        validate_phone (some p) = .ok (some q) →
        (∀ x ∈ s.members, x.phone = some q → x.id = mid) →
        ∃ m s2, update_member s mid d = (.ok m, s2) ∧ m.phone = some q) := by
  constructor
  · intro s mid d old e ve hold hdn hdp hde hvv honly
    have hfix : pyLower ve = ve := by
      rw [(validate_email_ok_shape _ _ hvv).1]
      exact pyLower_pyLower _
    have hun : updName d = .ok none := updName_none d hdn
    have hup : updPhone s mid d = .ok none := updPhone_none s mid d hdp
    have hv : validate_member_data "Dummy" e none = .ok ("Dummy", ve, none) :=
      validate_member_data_ok_of _ _ _ _ _ _ (by rfl) hvv (by rfl)
    have hue : updEmail s mid d = .ok (some ve) := by
      simp only [updEmail, hde, hv]
      cases hf : get_member_by_email s ve with
      | none => simp [hf]
      | some ex =>
        have hexmem : ex ∈ s.members :=
          List.mem_of_find?_eq_some (by simpa [get_member_by_email, hfix] using hf)
        have hexmail : ex.email = ve := by
          have := List.find?_some (by simpa [get_member_by_email, hfix] using hf)
          simpa using this
        have hexid : ex.id = mid := honly ex hexmem hexmail
        simp [hf, hexid]
    have hcommit :
        updateCommit s mid (some ve) none (applyUpdate old none (some ve) none) =
          .ok { s with members :=
            s.members.map (fun x => if x.id = mid then applyUpdate old none (some ve) none else x) } := by
      unfold updateCommit
      rw [if_neg ?hc1, if_neg ?hc2]
      case hc1 =>
        show ¬ (s.members.any (fun x => x.id != mid && x.email == ve) = true)
        simp only [List.any_eq_true, not_exists]
        intro x hx
        obtain ⟨hmem, hcond⟩ := hx
        simp only [Bool.and_eq_true, bne_iff_ne, beq_iff_eq] at hcond
        exact hcond.1 (honly x hmem hcond.2)
      case hc2 => simp
    refine ⟨applyUpdate old none (some ve) none,
      { s with members :=
          s.members.map (fun x => if x.id = mid then applyUpdate old none (some ve) none else x) },
      ?_, rfl⟩
    simp only [update_member, hold, hun, hue, hup, hcommit]
  · intro s mid d old p q hold hdn hde hdp hvp honly
    have hun : updName d = .ok none := updName_none d hdn
    have hue : updEmail s mid d = .ok none := updEmail_none s mid d hde
    have hv : validate_member_data "Dummy" "dummy@example.com" (some p) =
        .ok ("Dummy", "dummy@example.com", some q) :=
      validate_member_data_ok_of _ _ _ _ _ _ (by rfl) (by rfl) hvp
    have hup : updPhone s mid d = .ok (some (some q)) := by
      simp only [updPhone, hdp, hv]
      cases hf : get_member_by_phone s q with
      | none => simp [hf]
      | some ex =>
        have hexmem : ex ∈ s.members :=
          List.mem_of_find?_eq_some (by simpa [get_member_by_phone] using hf)
        have hexphone : ex.phone = some q := by
          have := List.find?_some (by simpa [get_member_by_phone] using hf)
          simpa using this
        have hexid : ex.id = mid := honly ex hexmem hexphone
        simp [hf, hexid]
    have hcommit :
        updateCommit s mid none (some (some q)) (applyUpdate old none none (some (some q))) =
          .ok { s with members :=
            s.members.map (fun x => if x.id = mid then applyUpdate old none none (some (some q)) else x) } := by
      unfold updateCommit
      rw [if_neg ?hd1, if_neg ?hd2]
      case hd1 => simp
      case hd2 =>
        show ¬ (s.members.any (fun x => x.id != mid && x.phone == some q) = true)
        simp only [List.any_eq_true, not_exists]
        intro x hx
        obtain ⟨hmem, hcond⟩ := hx
        simp only [Bool.and_eq_true, bne_iff_ne, beq_iff_eq] at hcond
        exact hcond.1 (honly x hmem hcond.2)
    refine ⟨applyUpdate old none none (some (some q)),
      { s with members :=
          s.members.map (fun x => if x.id = mid then applyUpdate old none none (some (some q)) else x) },
      ?_, rfl⟩
    simp only [update_member, hold, hun, hue, hup, hcommit]

/-- Witness for C6: a member updating their email to a value only they hold
(their own current email) succeeds instead of hitting `AlreadyExists`. -/
theorem update_excludes_self_witness :
    ∃ m s2, update_member ⟨[⟨1, "Jo", "x@y.com", none⟩], 2⟩ 1 ⟨none, some "X@Y.com", none⟩ =
      (.ok m, s2) ∧ m.email = "x@y.com" :=
  update_excludes_self.1 ⟨[⟨1, "Jo", "x@y.com", none⟩], 2⟩ 1 ⟨none, some "X@Y.com", none⟩
    ⟨1, "Jo", "x@y.com", none⟩ "X@Y.com" "x@y.com"
    (by rfl) rfl rfl rfl (by rfl) (by decide)

theorem validate_phone_strip_empty (p : String) (h : pyStrip p = "") :
    validate_phone (some p) = .ok none := by
  simp only [validate_phone]
  rw [if_pos h]

theorem validate_phone_ok_none (p : String) (h : validate_phone (some p) = .ok none) :
    pyStrip p = "" := by
  by_cases hs : pyStrip p = ""
  · exact hs
  · simp only [validate_phone] at h
    rw [if_neg hs] at h
    split at h
    · exact absurd h (by simp)
    · split at h
      · exact absurd h (by simp)
      · split at h
        · exact absurd h (by simp)
        · split at h
          · exact absurd h (by simp)
          · exact absurd h (by simp)

theorem updPhone_some_shape (s : Store) (mid : Nat) (d : MemberUpdate) (p : String)
    (uP : Option (Option String)) (hd : d.phone = some p) (h : updPhone s mid d = .ok uP) :
    ∃ vp, validate_phone (some p) = .ok vp ∧ uP = some vp := by
  simp only [updPhone, hd] at h
  cases hv : validate_member_data "Dummy" "dummy@example.com" (some p) with
  | error e => simp [hv] at h
  | ok r =>
    obtain ⟨a, b, c⟩ := r
    have hr := validate_member_data_ok _ _ _ _ _ _ hv
    simp only [hv] at h
    cases c with
    | none =>
      simp only [Except.ok.injEq] at h
      exact ⟨none, hr.2.2, h.symm⟩
    | some q =>
      cases hf : get_member_by_phone s q with
      | none =>
        simp only [hf, Except.ok.injEq] at h
        exact ⟨some q, hr.2.2, h.symm⟩
      | some ex =>
        simp only [hf] at h
        by_cases hid : ex.id ≠ mid
        · rw [if_pos hid] at h
          exact absurd h (by simp)
        · rw [if_neg hid] at h
          simp only [Except.ok.injEq] at h
          exact ⟨some q, hr.2.2, h.symm⟩

/-- C10: through `update_member`, supplying a whitespace-only (in particular
empty) string as the phone clears the stored phone to absent; omitting the
phone field leaves the stored phone unchanged; and a supplied phone results
in an absent stored phone only when it trims to the empty string — so the
empty/whitespace string is the only way to clear the phone. -/
theorem update_phone_clear_semantics :
    (∀ s : Store, ∀ mid : Nat, ∀ old : Member, ∀ p : String,
      get_member_by_id s mid = some old → pyStrip p = "" →
      ∃ m s2, update_member s mid ⟨none, none, some p⟩ = (.ok m, s2) ∧ m.phone = none)
    ∧ (∀ s : Store, ∀ mid : Nat, ∀ d : MemberUpdate, ∀ old m : Member, ∀ s2 : Store,
        get_member_by_id s mid = some old → d.phone = none →
        update_member s mid d = (.ok m, s2) → m.phone = old.phone)
    ∧ (∀ s : Store, ∀ mid : Nat, ∀ d : MemberUpdate, ∀ old m : Member, ∀ s2 : Store, ∀ p : String,
        get_member_by_id s mid = some old → d.phone = some p →
        update_member s mid d = (.ok m, s2) → m.phone = none → pyStrip p = "") := by
  refine ⟨?_, ?_, ?_⟩
  · intro s mid old p hold hp
    have hun : updName ⟨none, none, some p⟩ = .ok none := updName_none _ rfl
    have hue : updEmail s mid ⟨none, none, some p⟩ = .ok none := updEmail_none s mid _ rfl
    have hv : validate_member_data "Dummy" "dummy@example.com" (some p) =
        .ok ("Dummy", "dummy@example.com", none) :=
      validate_member_data_ok_of _ _ _ _ _ _ (by rfl) (by rfl) (validate_phone_strip_empty p hp)
    have hup : updPhone s mid ⟨none, none, some p⟩ = .ok (some none) := by
      simp only [updPhone, hv]
    have hcommit :
        updateCommit s mid none (some none) (applyUpdate old none none (some none)) =
          .ok { s with members :=
            s.members.map (fun x => if x.id = mid then applyUpdate old none none (some none) else x) } := by
      unfold updateCommit
      rw [if_neg (by simp), if_neg (by simp)]
    refine ⟨applyUpdate old none none (some none),
      { s with members :=
          s.members.map (fun x => if x.id = mid then applyUpdate old none none (some none) else x) },
      ?_, rfl⟩
    simp only [update_member, hold, hun, hue, hup, hcommit]
  · intro s mid d old m s2 hold hdp h
    have hup : updPhone s mid d = .ok none := updPhone_none s mid d hdp
    simp only [update_member, hold, hup] at h
    cases hn : updName d with
    | error e2 => simp [hn] at h
    | ok uN =>
      simp only [hn] at h
      cases he : updEmail s mid d with
      | error e2 => simp [he] at h
      | ok uE =>
        simp only [he] at h
        cases hc : updateCommit s mid uE none (applyUpdate old uN uE none) with
        | error v => simp [hc] at h
        | ok s3 =>
          simp only [hc] at h
          simp only [Prod.mk.injEq, Except.ok.injEq] at h
          obtain ⟨hm, _⟩ := h
          subst hm
          rfl
  · intro s mid d old m s2 p hold hdp h hmp
    cases hup : updPhone s mid d with
    | error e2 =>
      simp only [update_member, hold, hup] at h
      cases hn : updName d with
      | error e3 => simp [hn] at h
      | ok uN =>
        simp only [hn] at h
        cases he : updEmail s mid d with
        | error e3 => simp [he] at h
        | ok uE => simp [he] at h
    | ok uP =>
      obtain ⟨vp, hvp, huPP⟩ := updPhone_some_shape s mid d p uP hdp hup
      subst huPP
      simp only [update_member, hold, hup] at h
      cases hn : updName d with
      | error e2 => simp [hn] at h
      | ok uN =>
        simp only [hn] at h
        cases he : updEmail s mid d with
        | error e2 => simp [he] at h
        | ok uE =>
          simp only [he] at h
          cases hc : updateCommit s mid uE (some vp) (applyUpdate old uN uE (some vp)) with
          | error v => simp [hc] at h
          | ok s3 =>
            simp only [hc] at h
            simp only [Prod.mk.injEq, Except.ok.injEq] at h
            obtain ⟨hm, _⟩ := h
            subst hm
            have : vp = none := hmp
            subst this
            exact validate_phone_ok_none p hvp

/-- Witness for C10: supplying the empty string clears a stored phone. -/
theorem update_phone_clear_semantics_witness :
    ∃ m s2, update_member ⟨[⟨1, "Jo", "x@y.com", some "12345678"⟩], 2⟩ 1 ⟨none, none, some ""⟩ =
      (.ok m, s2) ∧ m.phone = none :=
  update_phone_clear_semantics.1 ⟨[⟨1, "Jo", "x@y.com", some "12345678"⟩], 2⟩ 1
    ⟨1, "Jo", "x@y.com", some "12345678"⟩ "" (by rfl) (by rfl)

theorem validate_name_error_shape (x : String) (err : MemberError)
    (h : validate_name x = .error err) : ∃ v r, err = .invalidField "name" v r := by
  rcases validate_name_cases x with ⟨hok, _⟩ | ⟨⟨v, r, he⟩, _⟩
  · rw [hok] at h
    exact absurd h (by simp)
  · rw [he] at h
    simp only [Except.error.injEq] at h
    exact ⟨v, r, h.symm⟩

theorem validate_email_error_shape (x : String) (err : MemberError)
    (h : validate_email x = .error err) : ∃ v r, err = .invalidField "email" v r := by
  simp only [validate_email] at h
  split at h
  · simp only [Except.error.injEq] at h
    exact ⟨_, _, h.symm⟩
  · split at h
    · simp only [Except.error.injEq] at h
      exact ⟨_, _, h.symm⟩
    · split at h
      · simp only [Except.error.injEq] at h
        exact ⟨_, _, h.symm⟩
      · split at h
        · simp only [Except.error.injEq] at h
          exact ⟨_, _, h.symm⟩
        · split at h
          · simp only [Except.error.injEq] at h
            exact ⟨_, _, h.symm⟩
          · split at h
            · simp only [Except.error.injEq] at h
              exact ⟨_, _, h.symm⟩
            · exact absurd h (by simp)

theorem validate_phone_error_shape (p : String) (err : MemberError)
    (h : validate_phone (some p) = .error err) : ∃ v r, err = .invalidField "phone" v r := by
  simp only [validate_phone] at h
  split at h
  · exact absurd h (by simp)
  · split at h
    · simp only [Except.error.injEq] at h
      exact ⟨_, _, h.symm⟩
    · split at h
      · simp only [Except.error.injEq] at h
        exact ⟨_, _, h.symm⟩
      · split at h
        · simp only [Except.error.injEq] at h
          exact ⟨_, _, h.symm⟩
        · split at h
          · simp only [Except.error.injEq] at h
            exact ⟨_, _, h.symm⟩
          · exact absurd h (by simp)

theorem validate_member_data_error_shape (n e : String) (p : Option String) (err : MemberError)
    (h : validate_member_data n e p = .error err) : ∃ fl v r, err = .invalidField fl v r := by
  unfold validate_member_data at h
  cases h1 : validate_name n with
  | error e1 =>
    simp only [h1, Except.error.injEq] at h
    obtain ⟨v, r, hh⟩ := validate_name_error_shape n e1 h1
    exact ⟨"name", v, r, by rw [← h]; exact hh⟩
  | ok a =>
    simp only [h1] at h
    cases h2 : validate_email e with
    | error e2 =>
      simp only [h2, Except.error.injEq] at h
      obtain ⟨v, r, hh⟩ := validate_email_error_shape e e2 h2
      exact ⟨"email", v, r, by rw [← h]; exact hh⟩
    | ok b =>
      simp only [h2] at h
      cases h3 : validate_phone p with
      | error e3 =>
        simp only [h3, Except.error.injEq] at h
        cases p with
        | none => exact absurd h3 (by simp [validate_phone])
        | some q =>
          obtain ⟨v, r, hh⟩ := validate_phone_error_shape q e3 h3
          exact ⟨"phone", v, r, by rw [← h]; exact hh⟩
      | ok c =>
        simp only [h3] at h
        exact absurd h (by simp)

theorem create_member_py_nofault (spre scommit : Store) (d : MemberCreate) :
    create_member_py ⟨none, none⟩ spre scommit d =
      ((create_member_racy spre scommit d).1.mapError PyException.domain,
        (create_member_racy spre scommit d).2) := by
  cases hv : validate_member_data d.name d.email d.phone with
  | error e =>
    obtain ⟨fl, v, r, hfe⟩ := validate_member_data_error_shape _ _ _ _ hv
    subst hfe
    simp [create_member_py, create_member_try, create_member_racy, hv, create_handle,
      Except.mapError]
  | ok t =>
    obtain ⟨vn, ve, vp⟩ := t
    have hre : get_member_by_email_py ⟨none, none⟩ spre ve =
        .ok (get_member_by_email spre ve) := rfl
    cases he : get_member_by_email spre ve with
    | some m2 =>
      simp [create_member_py, create_member_try, create_member_racy, hv, hre, he,
        create_handle, Except.mapError]
    | none =>
      cases vp with
      | none =>
        cases hc : insertCommit scommit
            { id := scommit.nextId, name := vn, email := ve, phone := none } with
        | ok s3 =>
          simp [create_member_py, create_member_try, create_member_racy, create_insert,
            insert_and_commit_py, commit_py, hv, hre, he, hc, Except.mapError]
        | error v =>
          simp [create_member_py, create_member_try, create_member_racy, create_insert,
            insert_and_commit_py, commit_py, hv, hre, he, hc, create_handle, Except.mapError]
      | some p =>
        have hrp : get_member_by_phone_py ⟨none, none⟩ spre p =
            .ok (get_member_by_phone spre p) := rfl
        cases hp : get_member_by_phone spre p with
        | some m3 =>
          simp [create_member_py, create_member_try, create_member_racy, hv, hre, he,
            hrp, hp, create_handle, Except.mapError]
        | none =>
          cases hc : insertCommit scommit
              { id := scommit.nextId, name := vn, email := ve, phone := some p } with
          | ok s3 =>
            simp [create_member_py, create_member_try, create_member_racy, create_insert,
              insert_and_commit_py, commit_py, hv, hre, he, hrp, hp, hc, Except.mapError]
          | error v =>
            simp [create_member_py, create_member_try, create_member_racy, create_insert,
              insert_and_commit_py, commit_py, hv, hre, he, hrp, hp, hc, create_handle,
              Except.mapError]
